import Mathlib

/-!
Verification development for the LKit embeddable expression language.

The definitions below are a shallow embedding of the C++ sources:
  * `value.cpp` / `value.h` — the typed polymorphic scalar (`Value` and its
    operations; C `int` is modelled as a 32-bit wrapped `Int`, C `uint64_t`
    as a `Nat` reduced mod 2^64, C `double` as an exact rational `ℚ`,
    spin-locks are dropped since we model single-threaded observable state);
  * `base_functions.cpp` — the built-in operator set (`max`, `min`, `+`,
    `-`, `*`, `/`, the comparison family and the logical family);
  * `variable.cpp` / `variable.h` — named variables with an optional bound
    expression;
  * `expression.cpp` / `expression.h` — operator application nodes;
  * `parser.cpp` — source-text compilation into an evaluation tree and its
    evaluation.
-/

namespace LKit

/-- Conversion of a C `bool` to `int` (`aValue ? 1 : 0`). -/
def b2i (b : Bool) : Int := if b then 1 else 0

/-- Conversion of a C `bool` to `uint64_t` (`aValue ? 1 : 0`). -/
def b2n (b : Bool) : Nat := if b then 1 else 0

/-- Conversion of a C `bool` to `double` (`aValue ? 1.0 : 0.0`). -/
def b2q (b : Bool) : ℚ := if b then 1 else 0

/-- 32-bit two's-complement wrap, modelling arithmetic on C `int`. -/
def wrap32 (z : Int) : Int := (z + 2 ^ 31) % 2 ^ 32 - 2 ^ 31

/-- Conversion of an integer to C `uint64_t` (reduction mod 2^64). -/
def wrap64 (z : Int) : Nat := (z % 2 ^ 64).toNat

/-- C cast `double → integer`: truncation toward zero. -/
def truncQ (q : ℚ) : Int := Int.tdiv q.num q.den

/-- C cast `(int)` applied to a `uint64_t` value. -/
def u64ToInt (t : Nat) : Int := wrap32 t

/-- C `uint64_t` addition of a possibly negative integer delta, mod 2^64. -/
def addU64 (t : Nat) (z : Int) : Nat := ((t : Int) + z % 2 ^ 64).toNat % 2 ^ 64

/-- C `uint64_t` multiplication by an integer (converted mod 2^64). -/
def mulU64 (t : Nat) (z : Int) : Nat := (((t : Int) * z) % 2 ^ 64).toNat

/-- The type tags of `lkit::value` (`value::value_type` in `value.h`). -/
inductive ValueType
  | eUnknown
  | eBool
  | eInt
  | eDouble
  | eTime
  deriving DecidableEq, Repr

/-- The tagged scalar `lkit::value`: a tag plus the matching payload of the
union in `value.h`.  `unknown` is the `eUnknown` state carrying no payload. -/
inductive Value
  | unknown
  | bool (b : Bool)
  | int (i : Int)
  | double (d : ℚ)
  | time (t : Nat)
  deriving DecidableEq, Repr

namespace Value

/-- The `_type` tag of a scalar. -/
def type : Value → ValueType
  | .unknown => .eUnknown
  | .bool _ => .eBool
  | .int _ => .eInt
  | .double _ => .eDouble
  | .time _ => .eTime

/-- `value::isUndefined()` — the tag is `eUnknown`. -/
def isUndefined : Value → Bool
  | .unknown => true
  | _ => false

/-- `value::clear_nl()` — reset to the undefined state. -/
def clear_nl (_x : Value) : Value := .unknown

/-- `value::evalAsBool_nl()`: undefined reads as `false`, numerics are
truthy iff non-zero. -/
def evalAsBool : Value → Bool
  | .unknown => false
  | .bool b => b
  | .int i => decide (i ≠ 0)
  | .double d => decide (d ≠ 0)
  | .time t => decide (t ≠ 0)

/-- `value::evalAsInt_nl()`: undefined reads as `0`, double truncates,
time is cast `uint64_t → int`. -/
def evalAsInt : Value → Int
  | .unknown => 0
  | .bool b => b2i b
  | .int i => i
  | .double d => wrap32 (truncQ d)
  | .time t => u64ToInt t

/-- `value::evalAsTime_nl()`: undefined reads as `0`, int and double are
cast to `uint64_t`. -/
def evalAsTime : Value → Nat
  | .unknown => 0
  | .bool b => b2n b
  | .int i => wrap64 i
  | .double d => wrap64 (truncQ d)
  | .time t => t

/-- `value::operator==(const value &)`: equal only when the tags agree and
the payloads (of that shared tag) agree; two undefined values are equal. -/
def eqValue (a b : Value) : Bool :=
  match a, b with
  | .unknown, .unknown => true
  | .bool x, .bool y => x == y
  | .int x, .int y => x == y
  | .double x, .double y => x == y
  | .time x, .time y => x == y
  | _, _ => false

/-- `value::operator!=(const value &)`. -/
def neValue (a b : Value) : Bool := !(eqValue a b)

/-- `value::operator<(bool)` — dispatch on the target's tag. -/
def ltBool (t : Value) (a : Bool) : Bool :=
  match t with
  | .unknown => false
  | .bool b => !b && a
  | .int i => decide (i < b2i a)
  | .double d => decide (d < b2q a)
  | .time tt => decide (tt < b2n a)

/-- `value::operator<(int)` — dispatch on the target's tag; note the time
branch casts the int argument to `uint64_t`. -/
def ltInt (t : Value) (a : Int) : Bool :=
  match t with
  | .unknown => false
  | .bool b => decide (b2i b < a)
  | .int i => decide (i < a)
  | .double d => decide (d < (a : ℚ))
  | .time tt => decide (tt < wrap64 a)

/-- `value::operator<(double)` — dispatch on the target's tag; the time
branch casts the double argument to `uint64_t`. -/
def ltDouble (t : Value) (a : ℚ) : Bool :=
  match t with
  | .unknown => false
  | .bool b => decide (b2q b < a)
  | .int i => decide ((i : ℚ) < a)
  | .double d => decide (d < a)
  | .time tt => decide (tt < wrap64 (truncQ a))

/-- `value::operator<(uint64_t)` — dispatch on the target's tag; the int
branch casts the argument to `int`, the double branch compares as double. -/
def ltTime (t : Value) (a : Nat) : Bool :=
  match t with
  | .unknown => false
  | .bool b => decide (b2n b < a)
  | .int i => decide (i < u64ToInt a)
  | .double d => decide (d < (a : ℚ))
  | .time tt => decide (tt < a)

/-- `value::operator<(const value &)` — dispatch on the source's tag, then
the matching typed overload; an undefined source compares `false`. -/
def ltValue (t s : Value) : Bool :=
  match s with
  | .unknown => false
  | .bool a => ltBool t a
  | .int a => ltInt t a
  | .double a => ltDouble t a
  | .time a => ltTime t a

/-- `value::operator>(bool)`. -/
def gtBool (t : Value) (a : Bool) : Bool :=
  match t with
  | .unknown => false
  | .bool b => b && !a
  | .int i => decide (i > b2i a)
  | .double d => decide (d > b2q a)
  | .time tt => decide (tt > b2n a)

/-- `value::operator>(int)`. -/
def gtInt (t : Value) (a : Int) : Bool :=
  match t with
  | .unknown => false
  | .bool b => decide (b2i b > a)
  | .int i => decide (i > a)
  | .double d => decide (d > (a : ℚ))
  | .time tt => decide (tt > wrap64 a)

/-- `value::operator>(double)`. -/
def gtDouble (t : Value) (a : ℚ) : Bool :=
  match t with
  | .unknown => false
  | .bool b => decide (b2q b > a)
  | .int i => decide ((i : ℚ) > a)
  | .double d => decide (d > a)
  | .time tt => decide (tt > wrap64 (truncQ a))

/-- `value::operator>(uint64_t)`. -/
def gtTime (t : Value) (a : Nat) : Bool :=
  match t with
  | .unknown => false
  | .bool b => decide (b2n b > a)
  | .int i => decide (i > u64ToInt a)
  | .double d => decide (d > (a : ℚ))
  | .time tt => decide (tt > a)

/-- `value::operator>(const value &)`. -/
def gtValue (t s : Value) : Bool :=
  match s with
  | .unknown => false
  | .bool a => gtBool t a
  | .int a => gtInt t a
  | .double a => gtDouble t a
  | .time a => gtTime t a

/-- `value::operator<=(const value &)` is implemented as `!operator>`. -/
def leValue (t s : Value) : Bool := !(gtValue t s)

/-- `value::operator>=(const value &)` is implemented as `!operator<`. -/
def geValue (t s : Value) : Bool := !(ltValue t s)

/-- `value::operator+=(bool)`: undefined adopts the bool, bool xors,
numerics add `aValue ? 1 : 0`. -/
def addAssignBool (t : Value) (a : Bool) : Value :=
  match t with
  | .unknown => .bool a
  | .bool b => .bool (b.xor a)
  | .int i => .int (wrap32 (i + b2i a))
  | .double d => .double (d + b2q a)
  | .time tt => .time (addU64 tt (b2i a))

/-- `value::operator+=(int)`: undefined adopts the int; a bool target is
combined through int arithmetic and compared with zero. -/
def addAssignInt (t : Value) (a : Int) : Value :=
  match t with
  | .unknown => .int a
  | .bool b => .bool (decide (b2i b + a ≠ 0))
  | .int i => .int (wrap32 (i + a))
  | .double d => .double (d + (a : ℚ))
  | .time tt => .time (addU64 tt a)

/-- `value::operator+=(double)`: undefined adopts the double; an int target
adds the truncated double. -/
def addAssignDouble (t : Value) (a : ℚ) : Value :=
  match t with
  | .unknown => .double a
  | .bool b => .bool (decide (b2q b + a ≠ 0))
  | .int i => .int (wrap32 (i + truncQ a))
  | .double d => .double (d + a)
  | .time tt => .time (wrap64 (truncQ ((tt : ℚ) + a)))

/-- `value::operator+=(uint64_t)`: undefined adopts the time value. -/
def addAssignTime (t : Value) (a : Nat) : Value :=
  match t with
  | .unknown => .time a
  | .bool b => .bool (decide ((b2n b + a) % 2 ^ 64 ≠ 0))
  | .int i => .int (wrap32 (i + a))
  | .double d => .double (d + (a : ℚ))
  | .time tt => .time ((tt + a) % 2 ^ 64)

/-- `value::operator+=(const value &)` — dispatch on the source's tag; an
undefined source leaves the target untouched. -/
def addAssign (t s : Value) : Value :=
  match s with
  | .unknown => t
  | .bool a => addAssignBool t a
  | .int a => addAssignInt t a
  | .double a => addAssignDouble t a
  | .time a => addAssignTime t a

/-- `value::operator-=(bool)`: an undefined target is set to `!aValue`. -/
def subAssignBool (t : Value) (a : Bool) : Value :=
  match t with
  | .unknown => .bool (!a)
  | .bool b => .bool (b.xor a)
  | .int i => .int (wrap32 (i - b2i a))
  | .double d => .double (d - b2q a)
  | .time tt => .time (addU64 tt (-(b2i a)))

/-- `value::operator-=(int)`: an undefined target is set to `-1 * aValue`. -/
def subAssignInt (t : Value) (a : Int) : Value :=
  match t with
  | .unknown => .int (wrap32 (-1 * a))
  | .bool b => .bool (decide (b2i b - a ≠ 0))
  | .int i => .int (wrap32 (i - a))
  | .double d => .double (d - (a : ℚ))
  | .time tt => .time (addU64 tt (-a))

/-- `value::operator-=(double)`: an undefined target is set to
`-1.0 * aValue`. -/
def subAssignDouble (t : Value) (a : ℚ) : Value :=
  match t with
  | .unknown => .double (-1 * a)
  | .bool b => .bool (decide (b2q b - a ≠ 0))
  | .int i => .int (wrap32 (i - truncQ a))
  | .double d => .double (d - a)
  | .time tt => .time (wrap64 (truncQ ((tt : ℚ) - a)))

/-- `value::operator-=(uint64_t)`: an undefined target is set to
`-1 * aValue`, computed in `uint64_t` arithmetic (so the tag is `eTime`). -/
def subAssignTime (t : Value) (a : Nat) : Value :=
  match t with
  | .unknown => .time (wrap64 (-(a : Int)))
  | .bool b => .bool (decide ((((b2n b : Int) - a) % 2 ^ 64) ≠ 0))
  | .int i => .int (wrap32 (i - a))
  | .double d => .double (d - (a : ℚ))
  | .time tt => .time (addU64 tt (-(a : Int)))

/-- `value::operator-=(const value &)` — an undefined source leaves the
target untouched. -/
def subAssign (t s : Value) : Value :=
  match s with
  | .unknown => t
  | .bool a => subAssignBool t a
  | .int a => subAssignInt t a
  | .double a => subAssignDouble t a
  | .time a => subAssignTime t a

/-- `value::operator*=(bool)`: an undefined target stays undefined. -/
def mulAssignBool (t : Value) (a : Bool) : Value :=
  match t with
  | .unknown => .unknown
  | .bool b => .bool (b && a)
  | .int i => .int (wrap32 (i * b2i a))
  | .double d => .double (d * b2q a)
  | .time tt => .time (mulU64 tt (b2i a))

/-- `value::operator*=(int)`: an undefined target stays undefined. -/
def mulAssignInt (t : Value) (a : Int) : Value :=
  match t with
  | .unknown => .unknown
  | .bool b => .bool (b && decide (a ≠ 0))
  | .int i => .int (wrap32 (i * a))
  | .double d => .double (d * (a : ℚ))
  | .time tt => .time (mulU64 tt a)

/-- `value::operator*=(double)`: an undefined target stays undefined; an
int target multiplies by the truncated double. -/
def mulAssignDouble (t : Value) (a : ℚ) : Value :=
  match t with
  | .unknown => .unknown
  | .bool b => .bool (b && decide (a ≠ 0))
  | .int i => .int (wrap32 (i * truncQ a))
  | .double d => .double (d * a)
  | .time tt => .time (wrap64 (truncQ ((tt : ℚ) * a)))

/-- `value::operator*=(uint64_t)`: an undefined target stays undefined. -/
def mulAssignTime (t : Value) (a : Nat) : Value :=
  match t with
  | .unknown => .unknown
  | .bool b => .bool (b && decide (a ≠ 0))
  | .int i => .int (wrap32 (i * a))
  | .double d => .double (d * (a : ℚ))
  | .time tt => .time ((tt * a) % 2 ^ 64)

/-- `value::operator*=(const value &)` — an undefined source leaves the
target untouched. -/
def mulAssign (t s : Value) : Value :=
  match s with
  | .unknown => t
  | .bool a => mulAssignBool t a
  | .int a => mulAssignInt t a
  | .double a => mulAssignDouble t a
  | .time a => mulAssignTime t a

/-- `value::operator/=(bool)`: bool targets become `!(b xor a)`; numeric
targets are cleared when the bool is `false` and untouched otherwise. -/
def divAssignBool (t : Value) (a : Bool) : Value :=
  match t with
  | .unknown => .unknown
  | .bool b => .bool (!(b.xor a))
  | .int i => if !a then .unknown else .int i
  | .double d => if !a then .unknown else .double d
  | .time tt => if !a then .unknown else .time tt

/-- `value::operator/=(int)`: a zero divisor clears the target. -/
def divAssignInt (t : Value) (a : Int) : Value :=
  match t with
  | .unknown => .unknown
  | .bool b =>
    if a = 0 then .unknown else .bool (decide (Int.tdiv (b2i b) a ≠ 0))
  | .int i => if a = 0 then .unknown else .int (wrap32 (Int.tdiv i a))
  | .double d => if a = 0 then .unknown else .double (d / (a : ℚ))
  | .time tt => if a = 0 then .unknown else .time (tt / wrap64 a)

/-- `value::operator/=(double)`: a zero divisor clears the target; an int
target divides as double and truncates back. -/
def divAssignDouble (t : Value) (a : ℚ) : Value :=
  match t with
  | .unknown => .unknown
  | .bool b => if a = 0 then .unknown else .bool (decide (b2q b / a ≠ 0))
  | .int i =>
    if a = 0 then .unknown else .int (wrap32 (truncQ ((i : ℚ) / a)))
  | .double d => if a = 0 then .unknown else .double (d / a)
  | .time tt =>
    if a = 0 then .unknown else .time (wrap64 (truncQ ((tt : ℚ) / a)))

/-- `value::operator/=(uint64_t)`: a zero divisor clears the target; an int
target is divided in `uint64_t` arithmetic and cast back. -/
def divAssignTime (t : Value) (a : Nat) : Value :=
  match t with
  | .unknown => .unknown
  | .bool b => if a = 0 then .unknown else .bool (decide (b2n b / a ≠ 0))
  | .int i => if a = 0 then .unknown else .int (u64ToInt (wrap64 i / a))
  | .double d => if a = 0 then .unknown else .double (d / (a : ℚ))
  | .time tt => if a = 0 then .unknown else .time (tt / a)

/-- `value::operator/=(const value &)` — an undefined SOURCE clears the
target (`case eUnknown: clear();`), unlike the other compound ops. -/
def divAssign (t s : Value) : Value :=
  match s with
  | .unknown => .unknown
  | .bool a => divAssignBool t a
  | .int a => divAssignInt t a
  | .double a => divAssignDouble t a
  | .time a => divAssignTime t a

/-- A defined scalar whose payload is zero: `false`, `0`, `0.0` or time 0.
This is the "zero-valued source" condition of the division clauses. -/
def isZeroValued : Value → Bool
  | .unknown => false
  | .bool b => !b
  | .int i => decide (i = 0)
  | .double d => decide (d = 0)
  | .time t => decide (t = 0)

end Value

/-!
Built-in functions (`base_functions.cpp`).

Each `func::*::eval` receives `std::vector<value *> & anArg`.  Every
non-NULL slot is evaluated with `value::eval()`.  Because `eval()` writes
its result into the node's own scalar slot before returning it, the
dereferenced node `*v` used by the fold step holds exactly the value that
`v->eval()` returned; so we model an argument vector as a
`List (Option Value)` of the evaluated per-slot results (`none` models a
NULL pointer in the vector).
-/

/-- The leading-NULL skip shared by `sum/diff/prod/quot/comp::eval`: skip
`none` slots, return the first present value (the seed — taken even when it
is Undefined) together with the remaining slots. -/
def skipNulls : List (Option Value) → Option (Value × List (Option Value))
  | [] => none
  | none :: rest => skipNulls rest
  | some v :: rest => some (v, rest)

/-- The fold loop shared by `sum/prod/quot::eval` (and the n-ary branch of
`diff::eval`): slots that are NULL or evaluate to Undefined are skipped,
every other value is folded into the accumulator with the given compound
assignment. -/
def foldValid (f : Value → Value → Value) : Value → List (Option Value) → Value
  | ans, [] => ans
  | ans, none :: rest => foldValid f ans rest
  | ans, some v :: rest =>
    foldValid f (if v.isUndefined then ans else f ans v) rest

/-- `func::sum::eval` — seed with the first non-NULL argument, fold `+=`
over the remaining valid arguments. -/
def sumEval (args : List (Option Value)) : Value :=
  match skipNulls args with
  | none => .unknown
  | some (v, rest) => foldValid Value.addAssign v rest

/-- `func::diff::eval` — unary minus (`ans *= -1`) when the seed is the last
slot, otherwise fold `-=` over the remaining valid arguments. -/
def diffEval (args : List (Option Value)) : Value :=
  match skipNulls args with
  | none => .unknown
  | some (v, rest) =>
    match rest with
    | [] => Value.mulAssignInt v (-1)
    | _ => foldValid Value.subAssign v rest

/-- `func::prod::eval` — fold `*=` over the valid arguments. -/
def prodEval (args : List (Option Value)) : Value :=
  match skipNulls args with
  | none => .unknown
  | some (v, rest) => foldValid Value.mulAssign v rest

/-- `func::quot::eval` — fold `/=` over the valid arguments. -/
def quotEval (args : List (Option Value)) : Value :=
  match skipNulls args with
  | none => .unknown
  | some (v, rest) => foldValid Value.divAssign v rest

/-- `func::max::eval` — keep the larger of the pivot and each valid
argument (`ans = (*v > ans ? *v : ans)`). -/
def maxEval (args : List (Option Value)) : Value :=
  match skipNulls args with
  | none => .unknown
  | some (v, rest) =>
    foldValid (fun ans w => if w.gtValue ans then w else ans) v rest

/-- `func::min::eval` — keep the smaller of the pivot and each valid
argument (`ans = (*v < ans ? *v : ans)`). -/
def minEval (args : List (Option Value)) : Value :=
  match skipNulls args with
  | none => .unknown
  | some (v, rest) =>
    foldValid (fun ans w => if w.ltValue ans then w else ans) v rest

/-- The discriminator of `func::comp` (`comp::comp_type`). -/
inductive CompType
  | eEquals
  | eNotEquals
  | eLessThan
  | eGreaterThan
  | eLessOrEqual
  | eGreaterOrEqual
  deriving DecidableEq, Repr

/-- The loop of `func::comp::eval` after the seed (`first`) is fixed: valid
arguments are counted; a failed check stops the loop with `comp = false`
(the count is then positive, so the answer is `Bool false`); the ordering
family moves the pivot to the passing argument.  Falling off the end with a
positive count yields `Bool true`; with no valid later argument the answer
is Undefined. -/
def compGo (ty : CompType) (first : Value) :
    List (Option Value) → Nat → Value
  | [], cnt => if cnt > 0 then .bool true else .unknown
  | none :: rest, cnt => compGo ty first rest cnt
  | some v :: rest, cnt =>
    if v.isUndefined then compGo ty first rest cnt
    else
      match ty with
      | .eEquals =>
        if first.neValue v then .bool false
        else compGo ty first rest (cnt + 1)
      | .eNotEquals =>
        if first.eqValue v then .bool false
        else compGo ty first rest (cnt + 1)
      | .eLessThan =>
        if first.ltValue v then compGo ty v rest (cnt + 1) else .bool false
      | .eGreaterThan =>
        if first.gtValue v then compGo ty v rest (cnt + 1) else .bool false
      | .eLessOrEqual =>
        if first.leValue v then compGo ty v rest (cnt + 1) else .bool false
      | .eGreaterOrEqual =>
        if first.geValue v then compGo ty v rest (cnt + 1) else .bool false

/-- `func::comp::eval` — skip leading NULLs, take the first present value
as the pivot, then run the comparison chain. -/
def compEval (ty : CompType) (args : List (Option Value)) : Value :=
  match skipNulls args with
  | none => .unknown
  | some (first, rest) => compGo ty first rest 0

/-- The discriminator of `func::bin` (`bin::bin_type`). -/
inductive BinType
  | eAnd
  | eOr
  | eNot
  deriving DecidableEq, Repr

/-- The loop of `func::bin::eval`.  `test` starts out `true`.  `eAnd` stops
with `test = false` on the first falsy valid argument; `eOr` stops with
`test = true` on the first truthy valid argument BUT leaves `test` at its
initial `true` when a valid argument is falsy; `eNot` negates the first
valid argument and stops.  The answer is `Bool test` when at least one
valid argument was seen, Undefined otherwise. -/
def binGo (ty : BinType) : List (Option Value) → Bool → Nat → Value
  | [], test, cnt => if cnt > 0 then .bool test else .unknown
  | none :: rest, test, cnt => binGo ty rest test cnt
  | some v :: rest, test, cnt =>
    if v.isUndefined then binGo ty rest test cnt
    else
      match ty with
      | .eAnd =>
        if !v.evalAsBool then .bool false else binGo ty rest test (cnt + 1)
      | .eOr =>
        if v.evalAsBool then .bool true else binGo ty rest test (cnt + 1)
      | .eNot => .bool (!v.evalAsBool)

/-- `func::bin::eval`. -/
def binEval (ty : BinType) (args : List (Option Value)) : Value :=
  binGo ty args true 0

/-- The built-in functions installed by `parser::useDefaultFunctions`. -/
inductive Fn
  | fmax
  | fmin
  | fsum
  | fdiff
  | fprod
  | fquot
  | fcomp (ty : CompType)
  | fbin (ty : BinType)
  deriving DecidableEq, Repr

/-- Dispatch of `function::eval` to the concrete built-in. -/
def applyFn : Fn → List (Option Value) → Value
  | .fmax, args => maxEval args
  | .fmin, args => minEval args
  | .fsum, args => sumEval args
  | .fdiff, args => diffEval args
  | .fprod, args => prodEval args
  | .fquot, args => quotEval args
  | .fcomp ty, args => compEval ty args
  | .fbin ty, args => binEval ty args

/-!
Evaluation-tree nodes.

The C++ tree is a pointer graph: constants are plain `value` nodes,
variables are `lkit::variable` nodes owned by the parser's variable table,
and operator applications are `lkit::expression` nodes.  We model a node
reference as a `Node`; a variable node is represented by its name, resolved
through the environment (the parser's variable table), which matches the
C++ pointer sharing because `parser::lookUpVariable` returns one node per
name.
-/

/-- A node of the evaluation tree: a constant scalar, a reference to a
named variable, or an expression (nullable `function` pointer + ordered
argument nodes, as in `expression.h`). -/
inductive Node
  | const (v : Value)
  | var (name : String)
  | expr (f : Option Fn) (args : List Node)

/-- The state of an `lkit::variable`: its current scalar slot and the
optional bound expression `_expr` from `variable.h`. -/
structure Variable where
  name : String
  scalar : Value
  bexpr : Option Node

/-- The parser's variable table (`var_map_t`), as an association list. -/
abbrev Env : Type := List (String × Variable)

/-- Table lookup by name. -/
def lookupVar (env : Env) (n : String) : Option Variable :=
  match env with
  | [] => none
  | (k, v) :: rest => if k = n then some v else lookupVar rest n

/-- `value::eval()` / `expression::eval()` / `variable::eval_nl()` on a
node reference, with fuel bounding the recursion depth.

Modelled from the spec: the bodies of `value::eval()` and
`expression::eval()` are absent from the sources (they are declared in
later headers and called from `base_functions.cpp`, `variable.cpp` and
`parser.cpp` but no definition is present); following spec sections 4.3
and 4.4 — and the present `variable::eval_nl` — a constant evaluates to
its own scalar, a variable first re-evaluates its bound expression if one
is attached (else returns its scalar), and an expression applies its
function to the evaluated argument list.  The in-place refresh of each
node's cached scalar slot is not represented because re-evaluation always
overwrites it. -/
def evalNode (env : Env) : Nat → Node → Value
  | 0, _ => .unknown
  | _ + 1, .const v => v
  | fuel + 1, .var n =>
    match lookupVar env n with
    | none => .unknown
    | some st =>
      match st.bexpr with
      | some e => evalNode env fuel e
      | none => st.scalar
  | fuel + 1, .expr f args =>
    match f with
    | none => .unknown
    | some f => applyFn f (args.map (fun a => some (evalNode env fuel a)))

/-- `variable::clear_nl()` as written in `variable.cpp`: the guard is
`if (_expr == NULL)` — so a non-NULL bound expression is NEVER dropped
(deleting a NULL pointer is a no-op); only the scalar slot is reset by the
base-class `value::clear_nl()`. -/
def Variable.clearNl (v : Variable) : Variable :=
  { v with scalar := .unknown }

/-- `variable::evalAsInt_nl()`: when a bound expression is attached,
re-evaluate it and store the result into the scalar slot, then read the
slot as int. -/
def Variable.evalAsIntNl (env : Env) (fuel : Nat) (v : Variable) : Int :=
  match v.bexpr with
  | some e => (evalNode env fuel e).evalAsInt
  | none => v.scalar.evalAsInt

/-- `variable::evalAsBool_nl()`: same refresh, read as bool. -/
def Variable.evalAsBoolNl (env : Env) (fuel : Nat) (v : Variable) : Bool :=
  match v.bexpr with
  | some e => (evalNode env fuel e).evalAsBool
  | none => v.scalar.evalAsBool

/-!
Tokens and literal constants (`parser::parseConst` and the C library
routines it relies on).  Tokens are lists of characters.
-/

/-- The NUL character returned by `std::string::operator[]` at the end. -/
def nulChar : Char := Char.ofNat 0

/-- The single-quote character delimiting timestamp literals. -/
def quoteChar : Char := Char.ofNat 39

/-- C `isspace`: space, tab, newline, vertical tab, form feed, return. -/
def isSpaceC (c : Char) : Bool :=
  c = ' ' || c = Char.ofNat 9 || c = Char.ofNat 10 || c = Char.ofNat 11 ||
    c = Char.ofNat 12 || c = Char.ofNat 13

/-- `aSrc[aPos]` on a `std::string`: the character at the index, or NUL
just past the end. -/
def getCh (s : List Char) (pos : Nat) : Char := s.getD pos nulChar

/-- The character set of numeric tokens in `parser::parseConst`
(`"+-0123456789.eE"`). -/
def numChars : List Char :=
  ['+', '-', '0', '1', '2', '3', '4', '5', '6', '7', '8', '9', '.', 'e', 'E']

/-- The characters whose presence makes a numeric token a double
(`".eE"`). -/
def dotE : List Char := ['.', 'e', 'E']

/-- Leading decimal digits of a token and the unconsumed remainder. -/
def takeDigits : List Char → List Char × List Char
  | [] => ([], [])
  | c :: rest =>
    if c.isDigit then
      let (ds, r) := takeDigits rest
      (c :: ds, r)
    else ([], c :: rest)

/-- The natural number denoted by a digit string. -/
def natOfDigits (ds : List Char) : Nat :=
  ds.foldl (fun acc c => acc * 10 + (c.toNat - 48)) 0

/-- One optional leading sign; returns the sign as `1`/`-1` and the rest. -/
def readSign : List Char → Int × List Char
  | [] => (1, [])
  | c :: rest =>
    if c = '-' then (-1, rest)
    else if c = '+' then (1, rest)
    else (1, c :: rest)

/-- C `atoi`: skip whitespace, one optional sign, then leading digits (the
empty digit string reads as 0); the stored result is a C `int`. -/
def atoiI (tok : List Char) : Int :=
  let tok := tok.dropWhile isSpaceC
  let (sgn, rest) := readSign tok
  let (ds, _) := takeDigits rest
  wrap32 (sgn * natOfDigits ds)

/-- C `atof`/`strtod` on decimal input, modelled exactly over `ℚ`: skip
whitespace, one optional sign, integer digits, optional fraction, then an
optional exponent that is consumed only when at least one exponent digit
follows; with no mantissa digits there is no conversion and the result is
0. -/
def atofQ (tok : List Char) : ℚ :=
  let tok := tok.dropWhile isSpaceC
  let (sgn, rest) := readSign tok
  let (d1, rest1) := takeDigits rest
  let (d2, rest2) :=
    match rest1 with
    | c :: more => if c = '.' then takeDigits more else ([], rest1)
    | [] => ([], rest1)
  if d1.isEmpty && d2.isEmpty then 0
  else
    let mant : ℚ := (natOfDigits (d1 ++ d2) : ℚ) / 10 ^ d2.length
    let expo : Int :=
      match rest2 with
      | c :: more =>
        if c = 'e' || c = 'E' then
          let (esgn, more1) := readSign more
          let (ed, _) := takeDigits more1
          if ed.isEmpty then 0 else esgn * natOfDigits ed
        else 0
      | [] => 0
    (sgn : ℚ) * mant * 10 ^ expo

/-- `util::timer::parseTimestamp` (from `util/timer.h`): date-bearing forms
go through `strptime`/`mktime`, whose result depends on the host's local
time zone and cannot be embedded; they are represented by this opaque-free
placeholder returning the `bzero`-initialised `stamp = 0`.  No claim
involves timestamps. -/
def mktimeMicros (_ : List Char) : Nat := 0

/-- `util::timer::parseTimestamp`: the time-only form
(`HH:MM:SS[.ffffff]`) computed exactly as in the source; date-bearing
forms delegate to `mktimeMicros` (see there). -/
def parseTimestamp (s : List Char) : Nat :=
  let len := s.length
  let gotDate := s.contains '-' && decide (len ≥ 10)
  let gotTime := s.contains ':' && decide (len ≥ 8)
  let stamp :=
    if gotDate then mktimeMicros s
    else if gotTime then
      let d : Nat → Nat := fun i => (getCh s i).toNat - 48
      let hrs := d 0 * 10 + d 1
      let mins := d 3 * 10 + d 4
      let secs := d 6 * 10 + d 7
      (((hrs * 60) + mins) * 60 + secs) * 1000000
    else 0
  match s.reverse.findIdx? (· = '.') with
  | none => stamp
  | some ridx =>
    let pos := len - 1 - ridx
    if pos + 1 < len then
      let frac := s.drop (pos + 1) ++ ['0', '0', '0', '0', '0', '0', '0']
      stamp + (atoiI (frac.take 6)).toNat
    else stamp

/-- `parser::parseConst`: quoted tokens parse as timestamps; tokens drawn
from `"+-0123456789.eE"` parse as int (no `.`/`e`/`E` present) or double
(otherwise); `true`/`false` parse as bool; anything else is not a constant
(`NULL`). -/
def parseConstL (tok : List Char) : Option Value :=
  if getCh tok 0 = quoteChar && getCh tok (tok.length - 1) = quoteChar then
    some (.time (parseTimestamp (tok.drop 1).dropLast))
  else if tok.all (fun c => numChars.contains c) then
    if tok.any (fun c => dotE.contains c) then some (.double (atofQ tok))
    else some (.int (atoiI tok))
  else if tok = ['t', 'r', 'u', 'e'] || tok = ['f', 'a', 'l', 's', 'e'] then
    some (.bool (getCh tok 0 = 't'))
  else none

/-!
The parser / environment (`parser.cpp`).
-/

/-- The parser state: source text, function table, variable table and the
compiled root (`_src`, `_fcns`, `_vars`, `_expr` of `parser.h`; the
constant and sub-expression pools only track ownership and are not
observable through evaluation, so they are not carried). -/
structure parser where
  src : String
  fcns : List (String × Fn)
  vars : Env

  root : Option Node

/-- `parser::lookUpFunction` — plain table lookup, `none` for a missing
name. -/
def lookupFn (fcns : List (String × Fn)) (n : String) : Option Fn :=
  match fcns with
  | [] => none
  | (k, f) :: rest => if k = n then some f else lookupFn rest n

/-- `parser::addVariable(variable * &)` — an existing entry of the same
name is assigned the new contents in place (preserving node identity),
otherwise the variable is inserted. -/
def addVariable (env : Env) (v : Variable) : Env :=
  match env with
  | [] => [(v.name, v)]
  | (k, w) :: rest =>
    if k = v.name then (k, v) :: rest else (k, w) :: addVariable rest v

/-- `parser::lookUpVariable` — return the table with a fresh placeholder
variable (undefined scalar, no bound expression) inserted when the name is
missing. -/
def lookUpVariable (env : Env) (n : String) : Env :=
  match lookupVar env n with
  | some _ => env
  | none => env ++ [(n, ⟨n, .unknown, none⟩)]

/-- `parser::handleToken` on an argument position or the head position:
with no function bound yet the token must name a registered function
(otherwise a `LookupError` is thrown); otherwise a constant token becomes a
constant node and any other token a (possibly freshly created placeholder)
variable node. -/
def handleToken (fcns : List (String × Fn)) (fn? : Option Fn)
    (args : List Node) (tok : List Char) (vars : Env) :
    Except String (Option Fn × List Node × Env) :=
  match fn? with
  | none =>
    match lookupFn fcns (String.mk tok) with
    | none => .error "handleToken: there is no function for the name"
    | some f => .ok (some f, args, vars)
  | some f =>
    match parseConstL tok with
    | some v => .ok (some f, args ++ [.const v], vars)
    | none =>
      .ok (some f, args ++ [.var (String.mk tok)],
        lookUpVariable vars (String.mk tok))

/-!
`parser::parseExpr` / `parser::parseVariable`, transcribed character by
character.  The C++ loops advance a cursor over the source; we model the
loop state explicitly (`fn?`/`args` are the expression object under
construction, `token` the token buffer — the C++ `in_token` flag is
equivalent to `token` being non-empty since both are reset together) and
bound the recursion with fuel; `parseFuel` below is far larger than the
number of loop steps any source of that length can take, so the fuel-out
branch is unreachable on real inputs.  The two mutually recursive C++
routines and their loops are expressed as one fuel-structural function
over a mode tag (so that it evaluates by plain structural recursion), with
named wrappers restoring the two C++ signatures below. -/

/-- Which of the parsing routines is running: the entry and loop of
`parser::parseExpr` and the entry and loop of `parser::parseVariable`. -/
inductive PMode
  | expr
  | exprLoop (fn? : Option Fn) (args : List Node) (token : List Char)
  | varStart
  | varLoop (retval : Option Variable) (complete : Bool) (token : List Char)

/-- The result of a parsing routine: the node built by `parseExpr`, or the
(possibly NULL) variable built by `parseVariable`, with the final cursor
and variable table. -/
inductive PRes
  | node (n : Node) (pos : Nat) (vars : Env)
  | varb (v : Option Variable) (pos : Nat) (vars : Env)

/-- The combined transcription of `parser::parseExpr` and
`parser::parseVariable` (see the module comment above).  In `.expr` mode:
require `(` and enter the token loop on an empty expression.  In
`.exprLoop` mode: a nested `(` recurses in `.expr` mode and appends the
sub-node (requiring a function to be bound already); whitespace ends the
pending token — `set` switches to `.varStart` (registering the parsed
variable, which becomes this form's node), any other token goes through
`handleToken`; at `)` or end of input the pending token is handled and the
`)` consumed.  In `.varLoop` mode: the first token is the variable's name;
one further constant token or one nested `(...)` expression becomes the
bound value, stored through `variable::set(value *)` (clear the scalar,
attach the node as `_expr`; a non-constant token makes `set` fail so
`complete` stays false); a third value-producing token raises the `set
requires only two things` error; a name token terminated by `)` rather
than whitespace reaches the trailing `retval->set(...)` with
`retval == NULL` — a null dereference in the C++, modelled as an error. -/
def parseRun (fcns : List (String × Fn)) (s : List Char) :
    Nat → Nat → Env → PMode → Except String PRes
  | 0, _, _, _ => .error "out of fuel"
  | fuel + 1, pos, vars, .expr =>
    if getCh s pos = '(' then
      parseRun fcns s fuel (pos + 1) vars (.exprLoop none [] [])
    else .error "parseExpr: syntax error - no ( to start expression"
  | fuel + 1, pos, vars, .exprLoop fn? args token =>
    if pos < s.length ∧ getCh s pos ≠ ')' then
      let c := getCh s pos
      if c = '(' then
        match fn? with
        | none =>
          .error "parseExpr: an expression can't be the first element in an expression - it must be a function"
        | some _ =>
          match parseRun fcns s fuel pos vars .expr with
          | .error e => .error e
          | .ok (.node sub pos' vars') =>
            parseRun fcns s fuel pos' vars' (.exprLoop fn? (args ++ [sub]) token)
          | .ok (.varb ..) => .error "internal: expr mode returned a variable"
      else if isSpaceC c then
        if token ≠ [] then
          if token = ['s', 'e', 't'] then
            match parseRun fcns s fuel pos vars .varStart with
            | .error e => .error e
            | .ok (.varb none _ _) =>
              .error "parseExpr: could not parse the variable definition"
            | .ok (.varb (some v) pos' vars') =>
              let vars2 := addVariable vars' v
              let pos2 :=
                if getCh s pos' = ')' ∧ pos' < s.length then pos' + 1 else pos'
              .ok (.node (.var v.name) pos2 vars2)
            | .ok (.node ..) => .error "internal: var mode returned a node"
          else
            match handleToken fcns fn? args token vars with
            | .error e => .error e
            | .ok (fn2, args2, vars2) =>
              parseRun fcns s fuel (pos + 1) vars2 (.exprLoop fn2 args2 [])
        else parseRun fcns s fuel (pos + 1) vars (.exprLoop fn? args [])
      else parseRun fcns s fuel (pos + 1) vars (.exprLoop fn? args (token ++ [c]))
    else
      match
        (if token ≠ [] then handleToken fcns fn? args token vars
         else .ok (fn?, args, vars)) with
      | .error e => .error e
      | .ok (fn2, args2, vars2) =>
        let pos2 := if getCh s pos = ')' ∧ pos < s.length then pos + 1 else pos
        .ok (.node (.expr fn2 args2) pos2 vars2)
  | fuel + 1, pos, vars, .varStart =>
    parseRun fcns s fuel pos vars (.varLoop none false [])
  | fuel + 1, pos, vars, .varLoop retval complete token =>
    if pos < s.length ∧ getCh s pos ≠ ')' then
      let c := getCh s pos
      if c = '(' then
        match retval with
        | none =>
          .error "parseVariable: an expression can't be the first element after set in a variable definition - it must be a name"
        | some v =>
          match parseRun fcns s fuel pos vars .expr with
          | .error e => .error e
          | .ok (.node sub pos' vars') =>
            parseRun fcns s fuel pos' vars'
              (.varLoop (some { v with scalar := .unknown, bexpr := some sub })
                true token)
          | .ok (.varb ..) => .error "internal: expr mode returned a variable"
      else if isSpaceC c then
        if token ≠ [] then
          match retval with
          | none =>
            parseRun fcns s fuel (pos + 1) vars
              (.varLoop (some ⟨String.mk token, .unknown, none⟩) complete [])
          | some v =>
            if !complete then
              match parseConstL token with
              | some cv =>
                parseRun fcns s fuel (pos + 1) vars
                  (.varLoop
                    (some { v with scalar := .unknown, bexpr := some (.const cv) })
                    true [])
              | none =>
                parseRun fcns s fuel (pos + 1) vars (.varLoop (some v) false [])
            else
              .error "parseVariable: a set requires only two things, and you have provided three"
        else parseRun fcns s fuel (pos + 1) vars (.varLoop retval complete [])
      else
        parseRun fcns s fuel (pos + 1) vars
          (.varLoop retval complete (token ++ [c]))
    else
      match
        (if token ≠ [] then
          if !complete then
            match retval with
            | none => .error "parseVariable: null dereference on NULL variable"
            | some v =>
              match parseConstL token with
              | some cv =>
                .ok (some { v with scalar := .unknown, bexpr := some (.const cv) })
              | none => .ok (some v)
          else
            .error "parseVariable: a set requires only two things, and you have provided three"
         else .ok retval : Except String (Option Variable)) with
      | .error e => .error e
      | .ok retval2 =>
        let pos2 := if getCh s pos = ')' ∧ pos < s.length then pos + 1 else pos
        .ok (.varb retval2 pos2 vars)

/-- `parser::parseExpr`, in its C++ signature. -/
def parseExprF (fuel : Nat) (fcns : List (String × Fn)) (s : List Char)
    (pos : Nat) (vars : Env) : Except String (Node × Nat × Env) :=
  match parseRun fcns s fuel pos vars .expr with
  | .error e => .error e
  | .ok (.node n p v) => .ok (n, p, v)
  | .ok (.varb ..) => .error "internal: expr mode returned a variable"

/-- A fuel bound comfortably above the number of recursive steps a parse of
`s` can take (each step consumes a character or enters a sub-parse that
does). -/
def parseFuel (s : List Char) : Nat := 8 * s.length + 64

/-- `parser::setSource`: replace the stored source and drop the compiled
root expression; the function and variable tables are not touched. -/
def parser.setSource (p : parser) (aSource : String) : parser :=
  { p with
    src := aSource
    root := (match p.root with
             | some _ => none
             | none => p.root) }

/-- `parser::compile`: a no-op when a root is already present; otherwise
scan to the first `(` (its absence makes `compile` return `false`) and
parse ONE expression there, which becomes the compiled root.  The rest of
the source after that first top-level form is never examined. -/
def parser.compile (p : parser) : Except String (parser × Bool) :=
  match p.root with
  | some _ => .ok (p, true)
  | none =>
    let s := p.src.toList
    match s.findIdx? (· = '(') with
    | none => .ok (p, false)
    | some pos =>
      match parseExprF (parseFuel s) p.fcns s pos p.vars with
      | .error e => .error e
      | .ok (node, _, vars') =>
        .ok ({ p with vars := vars', root := some node }, true)

/-- Evaluation fuel: the depth of a compiled tree (including hops through
variables' bound expressions) is bounded by the source length. -/
def evalFuel (s : String) : Nat := s.length + 16

/-- `parser::eval`: compile if needed, then evaluate the root (an
uncompiled or rootless parser yields the default undefined value). -/
def parser.eval (p : parser) : Except String (parser × Value) :=
  match p.compile with
  | .error e => .error e
  | .ok (p', ok) =>
    if ok then
      match p'.root with
      | some node => .ok (p', evalNode p'.vars (evalFuel p'.src) node)
      | none => .ok (p', .unknown)
    else .ok (p', .unknown)

/-- The double constant `2.71828183` seeded for the variable `e`. -/
def qE : ℚ := 271828183 / 100000000

/-- The double constant `3.14159265` seeded for the variable `pi`. -/
def qPi : ℚ := 314159265 / 100000000

/-- `parser::useDefaultFunctions` — the fixed built-in table. -/
def defaultFcns : List (String × Fn) :=
  [("max", .fmax), ("min", .fmin), ("+", .fsum), ("-", .fdiff),
   ("*", .fprod), ("/", .fquot),
   ("==", .fcomp .eEquals), ("!=", .fcomp .eNotEquals),
   ("<", .fcomp .eLessThan), (">", .fcomp .eGreaterThan),
   ("<=", .fcomp .eLessOrEqual), (">=", .fcomp .eGreaterOrEqual),
   ("and", .fbin .eAnd), ("or", .fbin .eOr), ("not", .fbin .eNot)]

/-- `parser::useDefaultVariables` — `e` and `pi`.  The C++ overload used
(`addVariable(name, const value &)`) constructs
`new variable(aName, aValue.clone())`, whose constructor stores the cloned
scalar as the variable's BOUND EXPRESSION `_expr`, not as its scalar
slot. -/
def defaultVars : Env :=
  [("e", ⟨"e", .unknown, some (.const (.double qE))⟩),
   ("pi", ⟨"pi", .unknown, some (.const (.double qPi))⟩)]

/-- `parser::reset` — the state after clearing and re-seeding the default
functions and variables (the state a freshly constructed parser is in). -/
def resetParser : parser :=
  { src := "", fcns := defaultFcns, vars := defaultVars, root := none }

/-- The host-side round trip used by the end-to-end scenarios: construct a
parser (which resets to the default environment), `setSource`, `evaluate`;
`none` reports a thrown compile error. -/
def runSource (s : String) : Option Value :=
  match (resetParser.setSource s).eval with
  | .ok (_, v) => some v
  | .error _ => none

/-- The compiled root after `setSource s; compile()` on a fresh parser
(`none` when compilation failed or threw). -/
def compiledRoot (s : String) : Option Node :=
  match (resetParser.setSource s).compile with
  | .ok (p, true) => p.root
  | _ => none

/-- The name of the variable node that is the compiled root, when the
compiled root is a variable node (as a parsed `set` form is). -/
def rootVarName (s : String) : Option String :=
  match compiledRoot s with
  | some (.var n) => some n
  | _ => none

/-!
Theorems.  Shared helper lemmas first, then one theorem per claim.
-/

/-- `+=` never changes the tag of a defined target. -/
theorem addAssign_type (t s : Value) (h : t.isUndefined = false) :
    (t.addAssign s).type = t.type := by
  cases t <;> cases s <;>
    simp_all [Value.isUndefined, Value.addAssign, Value.addAssignBool,
      Value.addAssignInt, Value.addAssignDouble, Value.addAssignTime,
      Value.type]

/-- `-=` never changes the tag of a defined target. -/
theorem subAssign_type (t s : Value) (h : t.isUndefined = false) :
    (t.subAssign s).type = t.type := by
  cases t <;> cases s <;>
    simp_all [Value.isUndefined, Value.subAssign, Value.subAssignBool,
      Value.subAssignInt, Value.subAssignDouble, Value.subAssignTime,
      Value.type]

/-- `*=` never changes the tag of a defined target. -/
theorem mulAssign_type (t s : Value) (h : t.isUndefined = false) :
    (t.mulAssign s).type = t.type := by
  cases t <;> cases s <;>
    simp_all [Value.isUndefined, Value.mulAssign, Value.mulAssignBool,
      Value.mulAssignInt, Value.mulAssignDouble, Value.mulAssignTime,
      Value.type]

/-- `/=` keeps the target's tag or clears the target. -/
theorem divAssign_type (t s : Value) :
    (t.divAssign s).type = t.type ∨ t.divAssign s = .unknown := by
  cases t <;> cases s <;>
    simp only [Value.divAssign, Value.divAssignBool, Value.divAssignInt,
      Value.divAssignDouble, Value.divAssignTime] <;>
    first
      | (split <;> simp [Value.type])
      | simp [Value.type]

/-- An undefined accumulator stays undefined under the `/=` fold. -/
theorem foldValid_divAssign_undef (rest : List (Option Value)) :
    foldValid Value.divAssign .unknown rest = .unknown := by
  induction rest with
  | nil => rfl
  | cons hd tl ih =>
    cases hd with
    | none => simpa [foldValid] using ih
    | some w =>
      by_cases hw : w.isUndefined = true
      · simpa [foldValid, hw] using ih
      · have : Value.divAssign .unknown w = .unknown := by
          cases w <;> simp_all [Value.isUndefined, Value.divAssign,
            Value.divAssignBool, Value.divAssignInt, Value.divAssignDouble,
            Value.divAssignTime]
        simp only [foldValid, Bool.not_eq_true] at *
        simp [hw, this, ih]

/-- A value whose tag agrees with a defined value's tag is defined. -/
theorem type_eq_defined (a b : Value) (h : a.type = b.type)
    (hb : b.isUndefined = false) : a.isUndefined = false := by
  cases a <;> cases b <;> simp_all [Value.type, Value.isUndefined]

/-- Folding a tag-preserving operation from a defined seed preserves the
seed's tag. -/
theorem foldValid_type (f : Value → Value → Value)
    (hf : ∀ t s, t.isUndefined = false → (f t s).type = t.type)
    (rest : List (Option Value)) (ans : Value)
    (h : ans.isUndefined = false) :
    (foldValid f ans rest).type = ans.type := by
  induction rest generalizing ans with
  | nil => rfl
  | cons hd tl ih =>
    cases hd with
    | none => simpa [foldValid] using ih ans h
    | some w =>
      by_cases hw : w.isUndefined = true
      · simpa [foldValid, hw] using ih ans h
      · have hw2 : w.isUndefined = false := by simpa using hw
        have htype := hf ans w h
        have hdef : (f ans w).isUndefined = false :=
          type_eq_defined (f ans w) ans htype h
        calc (foldValid f ans (some w :: tl)).type
            = (foldValid f (f ans w) tl).type := by simp [foldValid, hw2]
          _ = (f ans w).type := ih (f ans w) hdef
          _ = ans.type := htype

/-- The `/=` fold from a defined seed keeps the seed's tag or is cleared
to undefined. -/
theorem foldValid_divAssign_type (rest : List (Option Value)) (ans : Value)
    (h : ans.isUndefined = false) :
    (foldValid Value.divAssign ans rest).type = ans.type ∨
      foldValid Value.divAssign ans rest = .unknown := by
  induction rest generalizing ans with
  | nil => exact Or.inl rfl
  | cons hd tl ih =>
    cases hd with
    | none => simpa [foldValid] using ih ans h
    | some w =>
      by_cases hw : w.isUndefined = true
      · simpa [foldValid, hw] using ih ans h
      · have hw2 : w.isUndefined = false := by simpa using hw
        have hstep : foldValid Value.divAssign ans (some w :: tl) =
            foldValid Value.divAssign (Value.divAssign ans w) tl := by
          simp [foldValid, hw2]
        rw [hstep]
        rcases divAssign_type ans w with hty | hun
        · by_cases hdef : (Value.divAssign ans w).isUndefined = true
          · have hu : Value.divAssign ans w = .unknown := by
              cases hc : Value.divAssign ans w <;> simp_all [Value.isUndefined]
            rw [hu, foldValid_divAssign_undef]
            exact Or.inr rfl
          · have hdef2 : (Value.divAssign ans w).isUndefined = false := by
              simpa using hdef
            rcases ih (Value.divAssign ans w) hdef2 with h1 | h1
            · exact Or.inl (h1.trans hty)
            · exact Or.inr h1
        · rw [hun, foldValid_divAssign_undef]
          exact Or.inr rfl

attribute [local semireducible] Rat.add Rat.mul Rat.sub Rat.inv in
/-- Claim C1, counterexample: for the source
`(set x (+ 1 2 3)) (* x 3 (* x 2))` a fresh parser's `evaluate()` returns
the integer 6 — not the integer 108 the claim states — because `compile`
parses only the first top-level form. -/
theorem c1_counterexample :
    runSource "(set x (+ 1 2 3)) (* x 3 (* x 2))" = some (Value.int 6) ∧
      Value.int 6 ≠ Value.int 108 := by
  constructor <;> decide

attribute [local semireducible] Rat.add Rat.mul Rat.sub Rat.inv in
/-- Claim C1 (amended): `compile` scans to the first `(` and parses exactly
one top-level form, which becomes the compiled root; the remaining source
text is ignored — compiling the two-form source yields the same root (the
`set` form's variable node `x`) and the same evaluation as compiling the
first form alone — so a subsequent `evaluate()` of
`(set x (+ 1 2 3)) (* x 3 (* x 2))` returns Int 6, the value of the `set`
form. -/
theorem c1_first_form_is_root :
    rootVarName "(set x (+ 1 2 3)) (* x 3 (* x 2))" = some "x" ∧
    rootVarName "(set x (+ 1 2 3))" = some "x" ∧
    runSource "(set x (+ 1 2 3)) (* x 3 (* x 2))" =
      runSource "(set x (+ 1 2 3))" ∧
    runSource "(set x (+ 1 2 3)) (* x 3 (* x 2))" = some (Value.int 6) := by
  refine ⟨?_, ?_, ?_, ?_⟩ <;> decide

/-- Claim C2, counterexample: for `/` the result's tag can differ from the
first argument's tag even when not all arguments are Undefined — dividing
Int 10 by Int 0 clears the accumulator to Undefined. -/
theorem c2_counterexample :
    quotEval [some (Value.int 10), some (Value.int 0)] = Value.unknown ∧
      Value.unknown.type ≠ (Value.int 10).type := by
  exact ⟨rfl, by decide⟩

attribute [local semireducible] Rat.add Rat.mul Rat.sub Rat.inv in
/-- Claim C2 (amended): for `+`, `-` and `*`, when the first non-NULL
argument evaluates to a defined value the result's tag equals that
argument's tag (later arguments are folded through the compound-assignment
coercions of the accumulator's type); for `/` the result's tag likewise
equals the first argument's tag except that a division can clear the
result to Undefined; in particular `(+ 10 5.5 3.14 6.2)` evaluates to
Int 24. -/
theorem c2_first_operand_tag (args : List (Option Value)) (v : Value)
    (rest : List (Option Value)) (h : skipNulls args = some (v, rest))
    (hdef : v.isUndefined = false) :
    (sumEval args).type = v.type ∧ (diffEval args).type = v.type ∧
    (prodEval args).type = v.type ∧
    ((quotEval args).type = v.type ∨ quotEval args = Value.unknown) ∧
    sumEval [some (Value.int 10), some (Value.double (11 / 2)),
      some (Value.double (157 / 50)), some (Value.double (31 / 5))] =
      Value.int 24 := by
  refine ⟨?_, ?_, ?_, ?_, by decide⟩
  · simp only [sumEval, h]
    exact foldValid_type _ addAssign_type rest v hdef
  · simp only [diffEval, h]
    cases rest with
    | nil => cases v <;> simp_all [Value.isUndefined, Value.mulAssignInt,
        Value.type]
    | cons a b => exact foldValid_type _ subAssign_type _ v hdef
  · simp only [prodEval, h]
    exact foldValid_type _ mulAssign_type rest v hdef
  · simp only [quotEval, h]
    exact foldValid_divAssign_type rest v hdef

/-- Claim C2, witness: the concrete fold `(+ 10 5.5 3.14 6.2)` keeps the
Int tag of its first argument. -/
theorem c2_first_operand_tag_witness :
    (sumEval [some (Value.int 10), some (Value.double (11 / 2)),
      some (Value.double (157 / 50)), some (Value.double (31 / 5))]).type =
      (Value.int 10).type :=
  (c2_first_operand_tag
    [some (Value.int 10), some (Value.double (11 / 2)),
      some (Value.double (157 / 50)), some (Value.double (31 / 5))]
    (Value.int 10)
    [some (Value.double (11 / 2)), some (Value.double (157 / 50)),
      some (Value.double (31 / 5))] rfl rfl).1

attribute [local semireducible] Rat.add Rat.mul Rat.sub Rat.inv in
/-- Claim C3: `bin::eval` for `or` initialises `test = true` and never
assigns `false` to it, so a call whose valid arguments are all falsy
returns Bool true — both at the function level and end-to-end for the
source `(or 0)` — where the claim (and the spec's operator table) say the
result must be Bool false. -/
theorem c3_or_all_falsy_returns_true :
    binEval .eOr [some (Value.int 0)] = Value.bool true ∧
    runSource "(or 0)" = some (Value.bool true) := by
  constructor <;> decide

attribute [local semireducible] Rat.add Rat.mul Rat.sub Rat.inv in
/-- Claim C4: `value::operator==` demands identical type tags and performs
no coercion, so `(== 1 1.0 (* 2.0 0.5))` evaluates to Bool false, while
the claim — and the repository's own README table — state Bool true;
`eqValue` on Int 1 versus Double 1.0 is false. -/
theorem c4_eq_requires_same_tag :
    runSource "(== 1 1.0 (* 2.0 0.5))" = some (Value.bool false) ∧
    Value.eqValue (Value.int 1) (Value.double 1) = false := by
  constructor <;> decide

/-- Claim C5, counterexample: `a <= b` with `b` Undefined is TRUE (it is
implemented as `!(a > b)` and all `>` against Undefined are false), where
the claim states every ordering against Undefined is false. -/
theorem c5_counterexample :
    Value.leValue (Value.int 1) Value.unknown = true ∧
    Value.geValue (Value.int 1) Value.unknown = true := by
  exact ⟨rfl, rfl⟩

/-- Claim C5 (amended): an Undefined value compares equal exactly to
Undefined, and `<` and `>` are false whenever either side is Undefined;
but `<=` and `>=` — being the negations of `>` and `<` — are TRUE whenever
either side is Undefined. -/
theorem c5_undef_comparisons (a b : Value)
    (h : a = Value.unknown ∨ b = Value.unknown) :
    (Value.eqValue Value.unknown b = true ↔ b = Value.unknown) ∧
    Value.ltValue a b = false ∧ Value.gtValue a b = false ∧
    Value.leValue a b = true ∧ Value.geValue a b = true := by
  rcases h with h | h <;> subst h
  · cases b <;>
      simp [Value.eqValue, Value.ltValue, Value.gtValue, Value.leValue,
        Value.geValue, Value.ltBool, Value.ltInt, Value.ltDouble,
        Value.ltTime, Value.gtBool, Value.gtInt, Value.gtDouble,
        Value.gtTime]
  · cases a <;>
      simp [Value.eqValue, Value.ltValue, Value.gtValue, Value.leValue,
        Value.geValue]

/-- Claim C5, witness: Int 1 against Undefined — both strict orderings
false, both non-strict orderings true, and Undefined is not equal to it. -/
theorem c5_undef_comparisons_witness :
    (Value.eqValue Value.unknown (Value.int 1) = true ↔
      Value.int 1 = Value.unknown) ∧
    Value.ltValue (Value.int 1) Value.unknown = false ∧
    Value.gtValue (Value.int 1) Value.unknown = false ∧
    Value.leValue (Value.int 1) Value.unknown = true ∧
    Value.geValue (Value.int 1) Value.unknown = true := by
  have h := c5_undef_comparisons (Value.int 1) Value.unknown (Or.inr rfl)
  exact ⟨by constructor <;> intro hx <;> simp [Value.eqValue] at hx,
    h.2.1, h.2.2.1, h.2.2.2.1, h.2.2.2.2⟩

/-- Claim C6, counterexample: `/=` with an Undefined source CLEARS a
defined target (`case eUnknown: clear();` in `operator/=`), so the target
does not keep its tag and payload as the claim states. -/
theorem c6_counterexample :
    Value.divAssign (Value.int 5) Value.unknown = Value.unknown ∧
    Value.unknown ≠ Value.int 5 := by
  exact ⟨rfl, by decide⟩

/-- Claim C6 (amended): for `+=` and `-=` an Undefined source leaves the
target untouched and an Undefined target adopts the source's type; for
`*=` an Undefined source leaves the target untouched but an Undefined
target stays Undefined; for `/=` an Undefined source clears the target to
Undefined and an Undefined target stays Undefined. -/
theorem c6_undef_operand_rules (t s : Value) :
    Value.addAssign t Value.unknown = t ∧
    Value.subAssign t Value.unknown = t ∧
    Value.mulAssign t Value.unknown = t ∧
    Value.divAssign t Value.unknown = Value.unknown ∧
    (Value.addAssign Value.unknown s).type = s.type ∧
    (Value.subAssign Value.unknown s).type = s.type ∧
    Value.mulAssign Value.unknown s = Value.unknown ∧
    Value.divAssign Value.unknown s = Value.unknown := by
  refine ⟨rfl, rfl, rfl, rfl, ?_, ?_, ?_, ?_⟩ <;>
    cases s <;>
      simp [Value.addAssign, Value.addAssignBool, Value.addAssignInt,
        Value.addAssignDouble, Value.addAssignTime, Value.subAssign,
        Value.subAssignBool, Value.subAssignInt, Value.subAssignDouble,
        Value.subAssignTime, Value.mulAssign, Value.mulAssignBool,
        Value.mulAssignInt, Value.mulAssignDouble, Value.mulAssignTime,
        Value.divAssign, Value.divAssignBool, Value.divAssignInt,
        Value.divAssignDouble, Value.divAssignTime, Value.type]

attribute [local semireducible] Rat.add Rat.mul Rat.sub Rat.inv in
/-- Claim C7: dividing any target by a zero-valued source never raises an
error and clears the target to Undefined, except a Bool target divided by
a Bool source, which becomes `!(a xor b)`; end-to-end, `(/ 10 0)`
evaluates to the Undefined scalar rather than an error. -/
theorem c7_div_by_zero_clears (t s : Value) (h : s.isZeroValued = true) :
    Value.divAssign t s =
      (match t, s with
       | .bool a, .bool b => Value.bool (!(a.xor b))
       | _, _ => Value.unknown) ∧
    runSource "(/ 10 0)" = some Value.unknown := by
  refine ⟨?_, by decide⟩
  cases s with
  | unknown => simp [Value.isZeroValued] at h
  | bool b =>
    have hb : b = false := by simpa [Value.isZeroValued] using h
    subst hb
    cases t <;> simp [Value.divAssign, Value.divAssignBool]
  | int i =>
    have hi : i = 0 := by simpa [Value.isZeroValued] using h
    subst hi
    cases t <;> simp [Value.divAssign, Value.divAssignInt]
  | double d =>
    have hd : d = 0 := by simpa [Value.isZeroValued] using h
    subst hd
    cases t <;> simp [Value.divAssign, Value.divAssignDouble]
  | time tt =>
    have ht : tt = 0 := by simpa [Value.isZeroValued] using h
    subst ht
    cases t <;> simp [Value.divAssign, Value.divAssignTime]

/-- Claim C7, witness: Int 7 divided by the zero-valued Int 0 is cleared
to Undefined. -/
theorem c7_div_by_zero_clears_witness :
    Value.divAssign (Value.int 7) (Value.int 0) = Value.unknown :=
  (c7_div_by_zero_clears (Value.int 7) (Value.int 0) rfl).1

/-- Claim C8: `setSource` replaces the stored source text and discards the
compiled root while leaving the variable table and the function table
unchanged. -/
theorem c8_setSource_frame (p : parser) (s : String) :
    (p.setSource s).vars = p.vars ∧ (p.setSource s).fcns = p.fcns ∧
    (p.setSource s).src = s ∧ (p.setSource s).root = none := by
  refine ⟨rfl, rfl, rfl, ?_⟩
  simp only [parser.setSource]
  cases p.root <;> simp

/-- Claim C9: `variable::clear_nl` resets only the scalar slot (its guard
`if (_expr == NULL)` never deletes a non-NULL bound expression), so after
clearing, a variable with a bound expression still evaluates by
recomputing that expression, while a variable without one reads as the
Undefined scalar (0 as int). -/
theorem c9_clear_keeps_bound_expr (v : Variable) (env : Env) (fuel : Nat) :
    v.clearNl.bexpr = v.bexpr ∧ v.clearNl.name = v.name ∧
    v.clearNl.scalar = Value.unknown ∧
    Variable.evalAsIntNl env fuel v.clearNl =
      (match v.bexpr with
       | some e => (evalNode env fuel e).evalAsInt
       | none => 0) := by
  refine ⟨rfl, rfl, rfl, ?_⟩
  cases hb : v.bexpr <;>
    simp [Variable.evalAsIntNl, Variable.clearNl, hb, Value.evalAsInt]

/-- Claim C10: an argument token drawn from the characters `+-0-9.eE` that
contains at least one of `.`, `e`, `E` always parses as a double constant
via `atof` (never as a variable reference: `handleToken` appends a
constant node and leaves the variable table untouched); `atof` applied to
the bare token `e` yields 0, so `e` compiles to the constant Double 0.0
and the default variable `e` cannot be referenced from source text. -/
theorem c10_numeric_token_is_double (tok : List Char) (f : Fn)
    (args : List Node) (vars : Env) (fcns : List (String × Fn))
    (hall : tok.all (fun c => numChars.contains c) = true)
    (hany : tok.any (fun c => dotE.contains c) = true) :
    parseConstL tok = some (Value.double (atofQ tok)) ∧
    handleToken fcns (some f) args tok vars =
      .ok (some f, args ++ [Node.const (Value.double (atofQ tok))], vars) ∧
    atofQ ['e'] = 0 := by
  have hne : tok ≠ [] := by
    intro hx
    subst hx
    simp [List.any] at hany
  have h0 : getCh tok 0 ≠ quoteChar := by
    cases tok with
    | nil => exact absurd rfl hne
    | cons c cs =>
      intro hq
      have hc : numChars.contains c = true := by
        have := hall
        simp only [List.all_cons, Bool.and_eq_true] at this
        exact this.1
      rw [show getCh (c :: cs) 0 = c from rfl] at hq
      subst hq
      exact absurd hc (by decide)
  have hA : (decide (getCh tok 0 = quoteChar) &&
      decide (getCh tok (tok.length - 1) = quoteChar)) = false := by
    rw [decide_eq_false h0, Bool.false_and]
  have hpc : parseConstL tok = some (Value.double (atofQ tok)) := by
    simp only [parseConstL, hA, Bool.false_eq_true, if_false, hall, hany,
      if_true]
  refine ⟨hpc, ?_, rfl⟩
  simp only [handleToken, hpc]

/-- Claim C10, witness: the bare token `e` parses as the double constant
`atof("e") = 0.0`. -/
theorem c10_numeric_token_is_double_witness :
    parseConstL ['e'] = some (Value.double (atofQ ['e'])) :=
  (c10_numeric_token_is_double ['e'] .fsum [] [] [] (by decide)
    (by decide)).1

end LKit
